import Mathlib

/-!
Verification of the mail-synchronization engine in
`src/backend/utils/email/outlook.py` (class `OutlookMailHandler`).

The Python module is shallowly embedded below.  External effects (the IMAP
server, the HTTP token endpoint, the database, the wall clock) are modelled
as explicit environment values that fix the outcome of each external call,
and each run produces a trace of observable events (progress callbacks,
connect attempts, sleeps, protocol commands) together with its return value.
Helper functions imported from the module `.common` (not part of the
sources) are modelled from the specification and marked as such.
-/

/-- Search command used against the INBOX: unconditional `ALL`, or a
`SINCE "date"` query built from a lower-bound timestamp. -/
inductive SearchCmd where
  | all
  | since (s : String)
  deriving Repr, DecidableEq

/-- True exactly on the unconditional `ALL` search command. -/
def SearchCmd.isAll : SearchCmd → Bool
  | .all => true
  | .since _ => false

/-- Observable events produced inside `fetch_emails`. -/
inductive FEvent where
  | progressRaw (p : Nat) (label : String)
  | connectAttempt
  | logout
  | sleep1
  | junkProbe (folder : String)
  | junkSearch (folder : String)
  | junkCopy (folder : String) (ok : Bool)
  | junkStore (folder : String)
  | junkExpunge (folder : String)
  | inboxSelect
  | inboxSearch (cmd : SearchCmd)
  | fetchMsg (id : Nat)
  deriving Repr, DecidableEq

/-- Observable events produced by `check_mail`: progress reports delivered to
the caller's `progress_callback`, the token exchange, and the events of the
inner `fetch_emails` run. -/
inductive Event where
  | progressOut (p : Nat) (label : String)
  | tokenExchange
  | fe (e : FEvent)
  deriving Repr, DecidableEq

/-- Modelled from the spec: `decode_mime_words` (module `.common`, not in the
sources) decodes MIME encoded-words in a header into plain text.  Header
values in this model are already the decoded text, so the decoder is the
identity on them. -/
def decode_mime_words (s : String) : String := s

/-- Modelled from the spec: `normalize_check_time` (module `.common`, not in
the sources) normalizes an optional incremental lower-bound timestamp; an
absent timestamp stays absent ("If an incremental lower-bound timestamp is
supplied (normalized ...) ... otherwise searches unconditionally"). -/
def normalize_check_time (t : Option Nat) : Option Nat := t

/-- Modelled from the spec: `format_date_for_imap_search` (module `.common`,
not in the sources) renders the lower bound in the protocol's native
date-search token format (day-month abbreviation-year); modelled as an
injective rendering of the abstract timestamp. -/
def format_date_for_imap_search (t : Nat) : String := toString t

/-- Model of Python `datetime.isoformat()`: an injective rendering of the
abstract timestamp. -/
def isoformat (t : Nat) : String := toString t

/-- Python's `pat in s` substring test, via infix on the character lists. -/
def strContains (s pat : String) : Bool := decide (pat.data <:+: s.data)

/-- One MIME part as seen by `_extract_rich_content` while walking a
multipart message: its content type, the `str()` of its Content-Disposition
header (`"None"` when the header is absent), its filename if any, and its
decoded payload.  `payload = none` models `part.get_payload(decode=True)`
returning `None` or raising (the code skips the part in either case). -/
structure MimePart where
  content_type : String
  content_disposition : String
  filename : Option String
  payload : Option String
  deriving Repr, DecidableEq

/-- A message body: either multipart (the flat list of walked parts) or
single-part.  For a single part, `decoded` is the decoded payload
(`none` models a decode failure, in which case the code falls back to
`str(msg.get_payload())`, modelled by `raw`). -/
inductive MsgBody where
  | multipart (parts : List MimePart)
  | single (decoded : Option String) (raw : String)
  deriving Repr, DecidableEq

/-- One step of the `msg.walk()` fold in `_extract_rich_content`: the
accumulator is (plain-text buffer, HTML buffer, attachment filenames). -/
def walkStep (acc : String × String × List String) (part : MimePart) :
    String × String × List String :=
  let text := acc.1
  let html := acc.2.1
  let atts :=
    match part.filename with
    | some f => acc.2.2 ++ [decode_mime_words f]
    | none => acc.2.2
  if strContains part.content_disposition "attachment" then (text, html, atts)
  else
    match part.payload with
    | none => (text, html, atts)
    | some p =>
      if p = "" then (text, html, atts)
      else if part.content_type = "text/html" then (text, html ++ p, atts)
      else if part.content_type = "text/plain" then (text ++ p, html, atts)
      else (text, html, atts)

/-- The full walk over the parts of a multipart message. -/
def walkParts (parts : List MimePart) : String × String × List String :=
  parts.foldl walkStep ("", "", [])

/-- The HTML-format attachment footer appended when the chosen body is HTML. -/
def htmlFooter (atts : List String) : String :=
  "<br><hr><b>[系统提示] 包含附件:</b> " ++ String.intercalate ", " atts

/-- The plain-text attachment footer appended when the chosen body is plain
text. -/
def plainFooter (atts : List String) : String :=
  "\n\n----------------\n[包含附件]: " ++ String.intercalate ", " atts

/-- Python's default `str.strip()` whitespace (the ASCII part). -/
def isPySpace (c : Char) : Bool :=
  c = ' ' || c = '\t' || c = '\n' || c = '\x0d' || c = '\x0b' || c = '\x0c'

/-- Truthiness of Python `s.strip()`: `s.strip()` is falsy exactly when
every character of `s` is whitespace (in particular when `s` is empty). -/
def stripEmpty (s : String) : Bool := s.data.all isPySpace

/-- Final assembly in `_extract_rich_content`: the HTML buffer wins when it
is non-empty after stripping, else the plain-text buffer; if any attachment
filenames were collected, the matching-format footer is appended. -/
def assembleContent (text html : String) (atts : List String) : String :=
  let final := if stripEmpty html then text else html
  if atts.isEmpty then final
  else final ++ (if stripEmpty html then plainFooter atts else htmlFooter atts)

/-- `OutlookMailHandler._extract_rich_content`: normalizes a message body
into one content string (HTML preferred, attachment names appended). -/
def _extract_rich_content : MsgBody → String
  | .multipart parts =>
    let w := walkParts parts
    assembleContent w.1 w.2.1 w.2.2
  | .single decoded raw => assembleContent (decoded.getD raw) "" []

/-- `OutlookMailHandler.generate_auth_string`: the XOAUTH2 SASL payload
`user=<address>\x01auth=Bearer <token>\x01\x01`. -/
def generate_auth_string (user token : String) : String :=
  "user=" ++ user ++ "\x01auth=Bearer " ++ token ++ "\x01\x01"

/-- Spec-side description of the auth string, as the exact byte (character)
sequence the spec prescribes: `user=`, the address, the control character 1,
`auth=Bearer `, the token, and two control characters 1, with no escaping. -/
def authStringSpecChars (user token : String) : List Char :=
  "user=".data ++ user.data ++ [Char.ofNat 1] ++ "auth=Bearer ".data ++
    token.data ++ [Char.ofNat 1, Char.ofNat 1]

/-- Outcome of the HTTP token exchange in `get_new_access_token`: either the
request/JSON-parse raised, or a JSON object with optional `error` and
`access_token` fields was returned. -/
inductive TokenResp where
  | exn
  | json (error : Option String) (access_token : Option String)
  deriving Repr, DecidableEq

/-- `OutlookMailHandler.get_new_access_token`: returns the new access token
on a well-formed success response; returns `none` when the response carries
an `error` field, when `access_token` is missing (the `KeyError` is caught),
or when the exchange raises.  It performs a single exchange, no retry. -/
def get_new_access_token : TokenResp → Option String
  | .exn => none
  | .json err tok =>
    match err with
    | some _ => none
    | none =>
      match tok with
      | some t => some t
      | none => none

/-- The protocol Date header of a fetched message, as material for
`email.utils.parsedate_to_datetime`: absent (so `msg.get('Date','')`
yields `''`), present but unparseable, or parseable to a timestamp. -/
inductive DateHeader where
  | absent
  | unparseable (s : String)
  | valid (t : Nat)
  deriving Repr, DecidableEq

/-- Model of Python `email.utils.parsedate_to_datetime`: per the CPython
documentation it raises `ValueError` on malformed input (`TypeError` before
Python 3.10); an absent Date header reaches it as `''`, which is malformed.
It never returns `None`. -/
def parsedate_to_datetime : DateHeader → Except String Nat
  | .valid t => .ok t
  | .absent => .error "Invalid date value or format"
  | .unparseable _ => .error "Invalid date value or format"

/-- A raw fetched message: its Subject and From headers (decoded text in
this model), its Date header, and its MIME body. -/
structure RawMsg where
  subject : String
  sender : String
  date : DateHeader
  body : MsgBody
  deriving Repr, DecidableEq

/-- Outcome of `mail.fetch(mail_id, '(RFC822)')` plus message parsing for one
id: the fetch/parse raised, or produced a message. -/
inductive FetchOutcome where
  | exn
  | ok (m : RawMsg)
  deriving Repr, DecidableEq

/-- One record appended to `mail_records` in `fetch_emails`. -/
structure MailRecord where
  subject : String
  sender : String
  received_time : Option Nat
  content : String
  mail_key : String
  folder : String
  deriving Repr, DecidableEq

/-- The identity key `f"{subject}|{sender}|{iso-or-'unknown'}"` used for
in-pass deduplication. -/
def mail_key_of (subject sender : String) (t : Option Nat) : String :=
  subject ++ "|" ++ sender ++ "|" ++
    (match t with
     | some ts => isoformat ts
     | none => "unknown")

/-- The record built for one successfully parsed message (Date parsed to
`t`); in `fetch_emails` the source folder label is always `'INBOX'`. -/
def toRecord (m : RawMsg) (t : Nat) : MailRecord :=
  { subject := decode_mime_words m.subject
    sender := decode_mime_words m.sender
    received_time := some t
    content := _extract_rich_content m.body
    mail_key := mail_key_of (decode_mime_words m.subject)
      (decode_mime_words m.sender) (some t)
    folder := "INBOX" }

/-- The per-message body of the fetch loop, acting on the accumulated
records: a fetch/parse exception (including the Date-header parse raising)
is caught and the message skipped; a message whose identity key is already
among the collected records' keys is dropped; otherwise its record is
appended. -/
def msgStep (recs : List MailRecord) (fo : FetchOutcome) : List MailRecord :=
  match fo with
  | .exn => recs
  | .ok m =>
    match parsedate_to_datetime m.date with
    | .error _ => recs
    | .ok t =>
      let r := toRecord m t
      if r.mail_key ∈ recs.map MailRecord.mail_key then recs
      else recs ++ [r]

/-- The inbox-phase message loop of `fetch_emails` (`for i, mail_id in
enumerate(mail_ids)`): per iteration the progress `40 + int((i/total)*50)`
is reported (`90` when the batch is empty — an unreachable guard, since the
loop body only runs on a non-empty batch), the message is fetched, and
`msgStep` updates the collected records; per-message exceptions are caught
and never abort the remaining batch.  The source computes the percentage
with Python floats; for `i < total ≤ 100` both that and the natural-number
`40 + i * 50 / total` used here are non-decreasing in `i` and lie in
`[40, 89]`, which is all the proofs below rely on. -/
def msgLoop (total : Nat) : Nat → List (Nat × FetchOutcome) → List MailRecord →
    List FEvent × List MailRecord
  | _, [], recs => ([], recs)
  | i, (mid, fo) :: rest, recs =>
    let prog := if total ≠ 0 then 40 + i * 50 / total else 90
    let next := msgLoop total (i + 1) rest (msgStep recs fo)
    (FEvent.progressRaw prog "INBOX" :: FEvent.fetchMsg mid :: next.1, next.2)

/-- Result of `mail.select(junk_name)` on one junk-folder alias. -/
inductive SelectR where
  | exn
  | notOk
  | ok
  deriving Repr, DecidableEq

/-- Result of `mail.search(None, 'ALL')` in the junk folder. -/
inductive JSearchR where
  | exn
  | notOk
  | ok (ids : List Nat)
  deriving Repr, DecidableEq

/-- Result of `mail.copy(id_set, 'INBOX')`. -/
inductive CopyR where
  | exn
  | notOk
  | ok
  deriving Repr, DecidableEq

/-- External behaviour of one junk-folder alias during consolidation:
the outcomes of select, search, copy, and whether `store` / `expunge`
complete without raising. -/
structure AliasEnv where
  select : SelectR
  search : JSearchR
  copy : CopyR
  store : Bool
  expunge : Bool
  deriving Repr, DecidableEq

/-- Alias behaviour assumed when the environment list runs short: the
folder fails to select (a non-`OK` status, no exception). -/
def defaultAlias : AliasEnv :=
  { select := .notOk, search := .notOk, copy := .notOk
    store := true, expunge := true }

/-- The junk-folder alias list of `fetch_emails`. -/
def junk_aliases : List String :=
  ["Junk Email", "Junk", "Spam", "垃圾邮件", "junkemail"]

/-- One alias of the junk-consolidation scan: select it, and on an `OK`
select search it, batch-copy any messages to the inbox, flag the originals
deleted and expunge.  The boolean is `true` when the scan continues with the
next alias: after a non-`OK` select (the folder does not exist), or after
any exception inside the alias's `try` block (swallowed by the
`except ... continue`); it is `false` when the block completes and the
`break` fires — including after a non-`OK` copy, which is only logged. -/
def junkAlias (name : String) (a : AliasEnv) : List FEvent × Bool :=
  match a.select with
  | .exn => ([FEvent.junkProbe name], true)
  | .notOk => ([FEvent.junkProbe name], true)
  | .ok =>
    match a.search with
    | .exn => ([FEvent.junkProbe name, FEvent.junkSearch name], true)
    | .notOk => ([FEvent.junkProbe name, FEvent.junkSearch name], false)
    | .ok ids =>
      if ids.isEmpty then
        ([FEvent.junkProbe name, FEvent.junkSearch name], false)
      else
        match a.copy with
        | .exn => ([FEvent.junkProbe name, FEvent.junkSearch name], true)
        | .notOk =>
          ([FEvent.junkProbe name, FEvent.junkSearch name,
            FEvent.junkCopy name false], false)
        | .ok =>
          if !a.store then
            ([FEvent.junkProbe name, FEvent.junkSearch name,
              FEvent.junkCopy name true], true)
          else if !a.expunge then
            ([FEvent.junkProbe name, FEvent.junkSearch name,
              FEvent.junkCopy name true, FEvent.junkStore name], true)
          else
            ([FEvent.junkProbe name, FEvent.junkSearch name,
              FEvent.junkCopy name true, FEvent.junkStore name,
              FEvent.junkExpunge name], false)

/-- The junk-consolidation scan of `fetch_emails`: the aliases are probed in
order; a probed alias either stops the scan (its block completed and the
`break` fired) or the scan continues with the next alias (non-`OK` select,
or a swallowed exception anywhere in its block). -/
def junkLoop : List String → List AliasEnv → List FEvent
  | [], _ => []
  | name :: names, envs =>
    let r := junkAlias name (envs.headD defaultAlias)
    if r.2 then r.1 ++ junkLoop names envs.tail else r.1

/-- Result of `mail.search(None, ...)` on the INBOX: an exception, a
non-`OK` status, or the id list together with the fetch outcome the server
will produce for each id. -/
inductive InboxSearchR where
  | exn
  | notOk
  | ok (msgs : List (Nat × FetchOutcome))
  deriving Repr, DecidableEq

/-- External behaviour of one connect+operate attempt of the retry loop:
whether connect+authenticate succeeds, the junk-folder behaviours, whether
`mail.select('INBOX')` succeeds, and the inbox search result. -/
structure AttemptEnv where
  connect : Bool
  junk : List AliasEnv
  inboxSelect : Bool
  inboxSearch : InboxSearchR
  deriving Repr, DecidableEq

/-- Attempt behaviour assumed when the environment list runs short: the
connect step raises. -/
def defaultAttempt : AttemptEnv :=
  { connect := false, junk := [], inboxSelect := true, inboxSearch := .notOk }

/-- How one attempt of the retry loop ends: it completes (`break`), it
returns `[]` early (inbox search status not `OK`), or it raises. -/
inductive AttemptOutcome where
  | completed
  | earlyEmpty
  | exn
  deriving Repr, DecidableEq

/-- The hard cap of `fetch_emails`: keep only the most recent (last) 100
message ids (`mail_ids[-100:] if len(mail_ids) > 100 else mail_ids`). -/
def capIds {α : Type} (l : List α) : List α :=
  if l.length > 100 then l.drop (l.length - 100) else l

/-- The search command issued on the INBOX: `SINCE "date"` when a lower
bound is present, else `ALL`. -/
def searchEvent (lct : Option Nat) : FEvent :=
  match lct with
  | some d => .inboxSearch (.since (format_date_for_imap_search d))
  | none => .inboxSearch .all

/-- One connect+operate attempt of `fetch_emails`: report 10%, connect and
authenticate, report 20%, run the junk scan, report 40%, select the INBOX,
search it, cap the ids at the most recent 100, and run the message loop
(threading the records accumulated by earlier attempts); an exception at
connect, INBOX select or INBOX search aborts the attempt. -/
def fetchAttempt (a : AttemptEnv) (lct : Option Nat) (recs : List MailRecord) :
    List FEvent × List MailRecord × AttemptOutcome :=
  let e1 := [FEvent.progressRaw 10 "连接服务器...", FEvent.connectAttempt]
  if !a.connect then (e1, recs, .exn)
  else
    let e2 := e1 ++ [FEvent.progressRaw 20 "检查垃圾邮件..."] ++
      junkLoop junk_aliases a.junk ++
      [FEvent.progressRaw 40 "正在获取收件箱...", FEvent.inboxSelect]
    if !a.inboxSelect then (e2, recs, .exn)
    else
      match a.inboxSearch with
      | .exn => (e2 ++ [searchEvent lct], recs, .exn)
      | .notOk => (e2 ++ [searchEvent lct], recs, .earlyEmpty)
      | .ok pairs =>
        let capped := capIds pairs
        let next := msgLoop capped.length 0 capped recs
        (e2 ++ [searchEvent lct] ++ next.1 ++
          [FEvent.progressRaw 90 "完成获取"], next.2, .completed)

/-- The retry loop of `fetch_emails` (`for retry in range(max_retries)`),
with the remaining retries as fuel: a completed attempt breaks out of the
loop (`finally` logs out); an attempt whose inbox search returns a non-`OK`
status logs out and returns `[]` from the whole function (the `finally`
logout then runs on the closed session, so two logouts are traced); an
attempt that raises sleeps 1 second, logs out in `finally`, and the loop
retries with the records accumulated so far. -/
def fetchLoop (lct : Option Nat) :
    Nat → List AttemptEnv → List MailRecord → List FEvent × List MailRecord
  | 0, _, recs => ([], recs)
  | n + 1, envs, recs =>
    let a := envs.headD defaultAttempt
    let att := fetchAttempt a lct recs
    match att.2.2 with
    | .completed => (att.1 ++ [FEvent.logout], att.2.1)
    | .earlyEmpty => (att.1 ++ [FEvent.logout, FEvent.logout], [])
    | .exn =>
      let next := fetchLoop lct n envs.tail att.2.1
      (att.1 ++ [FEvent.sleep1, FEvent.logout] ++ next.1, next.2)

/-- `OutlookMailHandler.fetch_emails`: normalize the optional lower-bound
timestamp, then run up to `max_retries = 3` connect+operate attempts and
return the accumulated records. -/
def fetch_emails (envs : List AttemptEnv) (last_check_time : Option Nat) :
    List FEvent × List MailRecord :=
  let lct := normalize_check_time last_check_time
  fetchLoop lct 3 envs []

/-- The inner-to-outer progress remapping of `folder_progress_callback`:
`10 + int(progress * 0.8)`.  The source computes with a Python float; for
the integer percentages `p ≤ 100` that occur, `int(p * 0.8)` equals the
natural-number `p * 4 / 5` used here. -/
def mapProgress (p : Nat) : Nat := 10 + p * 4 / 5

/-- `folder_progress_callback` inside `check_mail`: each inner progress
report of `fetch_emails` is forwarded to the caller's callback with the
remapped percentage and a descriptive label; every other inner event is
kept in the trace unchanged. -/
def mapFetchEvent : FEvent → Event
  | .progressRaw p label =>
    .progressOut (mapProgress p)
      ("正在处理" ++ label ++ "，进度" ++ toString p ++ "%")
  | e => .fe e

/-- Outcome of one `db.add_mail_record` call: it raised (caught and
logged), or returned `False`, or returned `True`. -/
inductive AddR where
  | exn
  | okFalse
  | okTrue
  deriving Repr, DecidableEq

/-- The record-saving loop of `check_mail`: count the records for which
`db.add_mail_record` returns `True`; a raising call is caught and counts
as not saved. -/
def saveLoop : List MailRecord → List AddR → Nat
  | [], _ => 0
  | _ :: rs, outs =>
    (match outs.headD .exn with
     | .okTrue => 1
     | _ => 0) + saveLoop rs outs.tail

/-- External behaviour of one whole `check_mail` pass. -/
structure CheckEnv where
  tokenResp : TokenResp
  updateTokenOk : Bool
  attempts : List AttemptEnv
  addOutcomes : List AddR
  updateCheckOk : Bool
  deriving Repr, DecidableEq

/-- The terminal result of `check_mail`: the success flag and message, and
on success the total fetched and saved counts. -/
structure CheckResult where
  success : Bool
  message : String
  total : Option Nat
  saved : Option Nat
  deriving Repr, DecidableEq

/-- `OutlookMailHandler.check_mail`: report 0%, refresh the access token
(a falsy token — `None` or the empty string — ends the pass with
`success=False` before any session is opened), persist the token (a raising
`db.update_email_token` is caught by the outer handler and also fails the
pass), report 10%, run `fetch_emails` with no lower-bound timestamp while
remapping its progress reports into the 10–90 window, report 90%, save each
record (per-record failures only reduce the saved count), update the
last-check time (a failure there is swallowed), report 100% and return
`success=True` with the total/saved counts. -/
def check_mail (addr eid : String) (ce : CheckEnv) :
    List Event × CheckResult :=
  let e0 := [Event.progressOut 0 "正在获取访问令牌...", Event.tokenExchange]
  let tok := get_new_access_token ce.tokenResp
  if tok.getD "" = "" then
    let msg := "邮箱" ++ addr ++ "(ID=" ++ eid ++ ")获取访问令牌失败"
    (e0 ++ [Event.progressOut 0 msg],
     { success := false, message := msg, total := none, saved := none })
  else if !ce.updateTokenOk then
    let msg := "处理邮箱过程中出错: <exception>"
    (e0 ++ [Event.progressOut 0 msg],
     { success := false, message := msg, total := none, saved := none })
  else
    let f := fetch_emails ce.attempts none
    let count := f.2.length
    let saved := saveLoop f.2 ce.addOutcomes
    let msg := "完成，共处理" ++ toString count ++ "封邮件，新增" ++
      toString saved ++ "封"
    (e0 ++ [Event.progressOut 10 "开始获取邮件..."] ++
       f.1.map mapFetchEvent ++
       [Event.progressOut 90
          ("获取到" ++ toString count ++ "封邮件，正在保存..."),
        Event.progressOut 100 msg],
     { success := true, message := msg, total := some count
       saved := some saved })

/-- The inner progress percentages of a `fetch_emails` trace. -/
def rawProgress (l : List FEvent) : List Nat :=
  l.filterMap fun e =>
    match e with
    | .progressRaw p _ => some p
    | _ => none

/-- The progress percentages delivered to the caller's callback. -/
def progressValues (l : List Event) : List Nat :=
  l.filterMap fun e =>
    match e with
    | .progressOut p _ => some p
    | _ => none

/-- Number of session-open (connect) attempts in a pass trace. -/
def connectCount (l : List Event) : Nat :=
  l.countP fun e =>
    match e with
    | .fe .connectAttempt => true
    | _ => false

/-- Number of 1-second waits in a pass trace. -/
def sleepCount (l : List Event) : Nat :=
  l.countP fun e =>
    match e with
    | .fe .sleep1 => true
    | _ => false

/-- Number of token exchanges in a pass trace. -/
def tokenExchangeCount (l : List Event) : Nat :=
  l.countP fun e =>
    match e with
    | .tokenExchange => true
    | _ => false

/-- Number of successful junk-folder batch copies in a fetch trace. -/
def copyOkCount (l : List FEvent) : Nat :=
  l.countP fun e =>
    match e with
    | .junkCopy _ true => true
    | _ => false

/-- The message ids fetched, in processing order, of a fetch trace. -/
def fetchIds (l : List FEvent) : List Nat :=
  l.filterMap fun e =>
    match e with
    | .fetchMsg i => some i
    | _ => none

/-- The INBOX search commands issued during a pass trace. -/
def searchCmds (l : List Event) : List SearchCmd :=
  l.filterMap fun e =>
    match e with
    | .fe (.inboxSearch c) => some c
    | _ => none

/-- Spec-level first-occurrence filter: keep each element whose key has not
been seen before, accumulating seen keys.  This is the comparison point for
the deduplication claim ("the second and later occurrences of a key are
dropped silently and only the first is retained"). -/
def firstOccurrences {α K : Type} [DecidableEq K] (key : α → K) :
    List α → List K → List α
  | [], _ => []
  | a :: as, seen =>
    if key a ∈ seen then firstOccurrences key as seen
    else a :: firstOccurrences key as (key a :: seen)

/-- The successfully fetched-and-parsed messages of a batch, paired with
their parsed timestamps, in batch order. -/
def parsedOf : List (Nat × FetchOutcome) → List (RawMsg × Nat)
  | [] => []
  | (_, .exn) :: rest => parsedOf rest
  | (_, .ok m) :: rest =>
    match parsedate_to_datetime m.date with
    | .error _ => parsedOf rest
    | .ok t => (m, t) :: parsedOf rest

/-- The identity key of a parsed message. -/
def recKey (mt : RawMsg × Nat) : String := (toRecord mt.1 mt.2).mail_key

/-- Suffix test on the character lists of two strings. -/
def strEndsWith (s pat : String) : Bool := decide (pat.data <:+ s.data)

/-- Events the junk-consolidation scan can emit. -/
def isJunkEv : FEvent → Bool
  | .junkProbe _ => true
  | .junkSearch _ => true
  | .junkCopy _ _ => true
  | .junkStore _ => true
  | .junkExpunge _ => true
  | _ => false

/-- Events the inbox message loop can emit. -/
def isMsgEv : FEvent → Bool
  | .progressRaw _ _ => true
  | .fetchMsg _ => true
  | _ => false

/-- Session-open attempts in a fetch trace. -/
def connectCountF (l : List FEvent) : Nat :=
  l.countP fun e =>
    match e with
    | .connectAttempt => true
    | _ => false

/-- 1-second waits in a fetch trace. -/
def sleepCountF (l : List FEvent) : Nat :=
  l.countP fun e =>
    match e with
    | .sleep1 => true
    | _ => false

/-- The INBOX search commands issued in a fetch trace. -/
def searchCmdsF (l : List FEvent) : List SearchCmd :=
  l.filterMap fun e =>
    match e with
    | .inboxSearch c => some c
    | _ => none

/-- A message whose headers parse and whose Date header is valid. -/
def goodMsg (s : String) : RawMsg :=
  { subject := s, sender := "sender@example.com", date := .valid 5
    body := .single (some "body") "raw" }

/-- A message whose Date header is missing: `msg.get('Date','')` yields
`''`, on which `email.utils.parsedate_to_datetime` raises. -/
def absentDateMsg : RawMsg :=
  { subject := "no-date-subject", sender := "sender@example.com"
    date := .absent, body := .single (some "body") "raw" }

/-- True when the token-exchange response carries an `error` field or the
exchange raised. -/
def tokenFails : TokenResp → Bool
  | .exn => true
  | .json err _ => err.isSome

/-- A pass whose token exchange reports `invalid_grant`. -/
def ceTokenErr : CheckEnv :=
  { tokenResp := .json (some "invalid_grant") none, updateTokenOk := true
    attempts := [], addOutcomes := [], updateCheckOk := true }

/-- An attempt environment that connects and whose INBOX search returns the
given id/outcome pairs; no junk folder selects. -/
def benignAttempt (pairs : List (Nat × FetchOutcome)) : AttemptEnv :=
  { connect := true, junk := [], inboxSelect := true, inboxSearch := .ok pairs }

/-- An inline HTML body part. -/
def htmlPart (s : String) : MimePart :=
  { content_type := "text/html", content_disposition := "None"
    filename := none, payload := some s }

/-- An inline plain-text body part. -/
def textPart (s : String) : MimePart :=
  { content_type := "text/plain", content_disposition := "None"
    filename := none, payload := some s }

/-- A PDF attachment part carrying the given filename. -/
def pdfAttachment (f : String) : MimePart :=
  { content_type := "application/pdf"
    content_disposition := "attachment; filename=" ++ f
    filename := some f, payload := some "binary" }

/-- A plain-text-only multipart message with one attachment `report.pdf`. -/
def reportMsg : MsgBody :=
  .multipart [textPart "hello body", pdfAttachment "report.pdf"]

/-- A whitespace-only HTML part: its payload is accumulated into the HTML
buffer, but the buffer trims to empty. -/
def wsHtmlPart : MimePart := htmlPart " "

/-- True when the alias's block runs to completion without raising: the
mirror of the exception cases of the junk scan. -/
def aliasNoExn (a : AliasEnv) : Bool :=
  match a.select with
  | .exn => false
  | .notOk => true
  | .ok =>
    match a.search with
    | .exn => false
    | .notOk => true
    | .ok ids =>
      if ids.isEmpty then true
      else
        match a.copy with
        | .exn => false
        | .notOk => true
        | .ok => a.store && a.expunge

/-- An alias whose folder selects and copies successfully but whose
`store` call raises (after the copy), so the scan continues. -/
def aliasStoreRaise : AliasEnv :=
  { select := .ok, search := .ok [1], copy := .ok, store := false
    expunge := true }

/-- An alias that is consolidated completely without error. -/
def aliasGood : AliasEnv :=
  { select := .ok, search := .ok [2, 3], copy := .ok, store := true
    expunge := true }

/-- True when the INBOX search raises. -/
def isSearchExn : InboxSearchR → Bool
  | .exn => true
  | _ => false

/-- True when the connect+operate attempt raises somewhere the retry loop
can see it: at connect/authenticate, at `mail.select('INBOX')`, or at the
INBOX search (the junk scan and the per-message loop swallow their own
exceptions). -/
def attemptRaises (a : AttemptEnv) : Bool :=
  !a.connect || !a.inboxSelect || isSearchExn a.inboxSearch

/-- An attempt whose connect step raises. -/
def failAttempt : AttemptEnv :=
  { connect := false, junk := [], inboxSelect := true, inboxSearch := .notOk }

/-- A pass with a good token whose three connect+operate attempts all
raise. -/
def ceAllFail : CheckEnv :=
  { tokenResp := .json none (some "T"), updateTokenOk := true
    attempts := [failAttempt, failAttempt, failAttempt]
    addOutcomes := [], updateCheckOk := true }

/-- An attempt that connects but whose INBOX search raises. -/
def raiseSearchAttempt : AttemptEnv :=
  { connect := true, junk := [], inboxSelect := true, inboxSearch := .exn }

/-- A pass whose first attempt raises at the INBOX search and whose second
attempt succeeds with an empty inbox. -/
def ceRetry : CheckEnv :=
  { tokenResp := .json none (some "T"), updateTokenOk := true
    attempts := [raiseSearchAttempt, benignAttempt []]
    addOutcomes := [], updateCheckOk := true }

/-- A pass whose single attempt succeeds with two messages. -/
def ceHappy : CheckEnv :=
  { tokenResp := .json none (some "T"), updateTokenOk := true
    attempts := [benignAttempt [(1, .ok (goodMsg "a")), (2, .ok (goodMsg "b"))]]
    addOutcomes := [.okTrue, .okTrue], updateCheckOk := true }

theorem junkAlias_events_isJunk (name : String) (a : AliasEnv) :
    ((junkAlias name a).1).all isJunkEv = true := by
  rcases a with ⟨sel, sea, cp, st, ex⟩
  cases sel <;> rcases sea with _ | _ | ids <;> (try cases ids) <;>
    cases cp <;> cases st <;> cases ex <;> rfl

theorem junkLoop_events_isJunk :
    ∀ (names : List String) (envs : List AliasEnv),
      (junkLoop names envs).all isJunkEv = true := by
  intro names
  induction names with
  | nil => intro envs; rfl
  | cons n ns ih =>
    intro envs
    simp only [junkLoop]
    split
    · rw [List.all_append, junkAlias_events_isJunk, ih, Bool.and_self]
    · exact junkAlias_events_isJunk n _

theorem msgLoop_events_isMsg (total : Nat) :
    ∀ (pairs : List (Nat × FetchOutcome)) (i : Nat) (recs : List MailRecord),
      ((msgLoop total i pairs recs).1).all isMsgEv = true := by
  intro pairs
  induction pairs with
  | nil => intro i recs; rfl
  | cons p rest ih =>
    intro i recs
    rcases p with ⟨mid, fo⟩
    simp only [msgLoop, List.all_cons]
    rw [ih]
    rfl

theorem filterMap_eq_nil_of_all {β : Type} {f : FEvent → Option β}
    {cl : FEvent → Bool} (h : ∀ e, cl e = true → f e = none)
    (l : List FEvent) (hl : l.all cl = true) : l.filterMap f = [] := by
  rw [List.filterMap_eq_nil_iff]
  intro a ha
  exact h a (List.all_eq_true.mp hl a ha)

theorem countP_eq_zero_of_all {p : FEvent → Bool} {cl : FEvent → Bool}
    (h : ∀ e, cl e = true → p e = false)
    (l : List FEvent) (hl : l.all cl = true) : l.countP p = 0 := by
  rw [List.countP_eq_zero]
  intro a ha
  rw [h a (List.all_eq_true.mp hl a ha)]
  exact Bool.false_ne_true

theorem junkLoop_rawProgress (names : List String) (envs : List AliasEnv) :
    rawProgress (junkLoop names envs) = [] :=
  filterMap_eq_nil_of_all (by intro e he; cases e <;> simp_all [isJunkEv])
    _ (junkLoop_events_isJunk names envs)

theorem junkLoop_connectCount (names : List String) (envs : List AliasEnv) :
    connectCountF (junkLoop names envs) = 0 :=
  countP_eq_zero_of_all (by intro e he; cases e <;> simp_all [isJunkEv])
    _ (junkLoop_events_isJunk names envs)

theorem junkLoop_sleepCount (names : List String) (envs : List AliasEnv) :
    sleepCountF (junkLoop names envs) = 0 :=
  countP_eq_zero_of_all (by intro e he; cases e <;> simp_all [isJunkEv])
    _ (junkLoop_events_isJunk names envs)

theorem junkLoop_searchCmds (names : List String) (envs : List AliasEnv) :
    searchCmdsF (junkLoop names envs) = [] :=
  filterMap_eq_nil_of_all (by intro e he; cases e <;> simp_all [isJunkEv])
    _ (junkLoop_events_isJunk names envs)

theorem junkLoop_fetchIds (names : List String) (envs : List AliasEnv) :
    fetchIds (junkLoop names envs) = [] :=
  filterMap_eq_nil_of_all (by intro e he; cases e <;> simp_all [isJunkEv])
    _ (junkLoop_events_isJunk names envs)

theorem msgLoop_connectCount (total i : Nat)
    (pairs : List (Nat × FetchOutcome)) (recs : List MailRecord) :
    connectCountF (msgLoop total i pairs recs).1 = 0 :=
  countP_eq_zero_of_all (by intro e he; cases e <;> simp_all [isMsgEv])
    _ (msgLoop_events_isMsg total pairs i recs)

theorem msgLoop_searchCmds (total i : Nat)
    (pairs : List (Nat × FetchOutcome)) (recs : List MailRecord) :
    searchCmdsF (msgLoop total i pairs recs).1 = [] :=
  filterMap_eq_nil_of_all (by intro e he; cases e <;> simp_all [isMsgEv])
    _ (msgLoop_events_isMsg total pairs i recs)

theorem msgLoop_fetchIds (total : Nat) :
    ∀ (pairs : List (Nat × FetchOutcome)) (i : Nat) (recs : List MailRecord),
      fetchIds (msgLoop total i pairs recs).1 = pairs.map Prod.fst := by
  intro pairs
  induction pairs with
  | nil => intro i recs; rfl
  | cons p rest ih =>
    intro i recs
    rcases p with ⟨mid, fo⟩
    simp only [msgLoop, fetchIds, List.filterMap_cons, List.map_cons]
    exact congrArg (List.cons mid) (ih (i + 1) (msgStep recs fo))

theorem firstOccurrences_congr {α K : Type} [DecidableEq K] (key : α → K) :
    ∀ (l : List α) (s₁ s₂ : List K), (∀ x, x ∈ s₁ ↔ x ∈ s₂) →
      firstOccurrences key l s₁ = firstOccurrences key l s₂ := by
  intro l
  induction l with
  | nil => intro s₁ s₂ _; rfl
  | cons a as ih =>
    intro s₁ s₂ h
    simp only [firstOccurrences]
    by_cases hm : key a ∈ s₁
    · rw [if_pos hm, if_pos ((h _).mp hm)]
      exact ih s₁ s₂ h
    · rw [if_neg hm, if_neg (fun hx => hm ((h _).mpr hx)),
        ih (key a :: s₁) (key a :: s₂) ?_]
      intro x
      simp only [List.mem_cons]
      exact or_congr Iff.rfl (h x)

theorem msgLoop_records (total : Nat) :
    ∀ (pairs : List (Nat × FetchOutcome)) (i : Nat) (recs : List MailRecord),
      (msgLoop total i pairs recs).2 =
        recs ++ (firstOccurrences recKey (parsedOf pairs)
          (recs.map MailRecord.mail_key)).map fun mt => toRecord mt.1 mt.2 := by
  intro pairs
  induction pairs with
  | nil =>
    intro i recs
    simp [msgLoop, parsedOf, firstOccurrences]
  | cons p rest ih =>
    intro i recs
    rcases p with ⟨mid, fo⟩
    rcases fo with _ | m
    · simp only [msgLoop, msgStep, parsedOf]
      exact ih (i + 1) recs
    · simp only [msgLoop, msgStep, parsedOf]
      cases hd : parsedate_to_datetime m.date with
      | error e =>
        exact ih (i + 1) recs
      | ok t =>
        have hkeq : recKey (m, t) = (toRecord m t).mail_key := rfl
        by_cases hm :
            (toRecord m t).mail_key ∈ recs.map MailRecord.mail_key
        · simp only [firstOccurrences, hkeq, if_pos hm]
          exact ih (i + 1) recs
        · simp only [firstOccurrences, hkeq, if_neg hm]
          rw [ih (i + 1) (recs ++ [toRecord m t]),
            firstOccurrences_congr recKey (parsedOf rest)
              ((recs ++ [toRecord m t]).map MailRecord.mail_key)
              ((toRecord m t).mail_key :: recs.map MailRecord.mail_key) ?_]
          · simp
          · intro x
            simp only [List.map_append, List.map_cons, List.map_nil,
              List.mem_append, List.mem_cons, List.not_mem_nil, or_false,
              List.mem_singleton]
            exact or_comm

theorem firstOccurrences_keys_nodup {α K : Type} [DecidableEq K]
    (key : α → K) :
    ∀ (l : List α) (seen : List K),
      ((firstOccurrences key l seen).map key).Nodup ∧
        ∀ x ∈ (firstOccurrences key l seen).map key, x ∉ seen := by
  intro l
  induction l with
  | nil => intro seen; exact ⟨List.nodup_nil, by simp [firstOccurrences]⟩
  | cons a as ih =>
    intro seen
    simp only [firstOccurrences]
    by_cases hm : key a ∈ seen
    · rw [if_pos hm]
      exact ih seen
    · rw [if_neg hm]
      obtain ⟨hnd, hni⟩ := ih (key a :: seen)
      constructor
      · simp only [List.map_cons, List.nodup_cons]
        exact ⟨fun hx => (hni _ hx) (List.mem_cons_self _ _), hnd⟩
      · intro x hx
        simp only [List.map_cons, List.mem_cons] at hx
        rcases hx with rfl | hx
        · exact hm
        · exact fun hxs => (hni x hx) (List.mem_cons_of_mem _ hxs)

theorem msgLoop_records_nodup (total i : Nat)
    (pairs : List (Nat × FetchOutcome)) (recs : List MailRecord)
    (h : (recs.map MailRecord.mail_key).Nodup) :
    (((msgLoop total i pairs recs).2).map MailRecord.mail_key).Nodup := by
  rw [msgLoop_records, List.map_append, List.map_map]
  have hkey : (MailRecord.mail_key ∘ fun mt : RawMsg × Nat =>
      toRecord mt.1 mt.2) = recKey := rfl
  rw [hkey]
  obtain ⟨hnd, hni⟩ := firstOccurrences_keys_nodup recKey (parsedOf pairs)
    (recs.map MailRecord.mail_key)
  exact List.Nodup.append h hnd fun x hx hx2 => (hni x hx2) hx

theorem fetchAttempt_records_nodup (a : AttemptEnv) (lct : Option Nat)
    (recs : List MailRecord) (h : (recs.map MailRecord.mail_key).Nodup) :
    (((fetchAttempt a lct recs).2.1).map MailRecord.mail_key).Nodup := by
  simp only [fetchAttempt]
  split
  · exact h
  · split
    · exact h
    · split
      · exact h
      · exact h
      · exact msgLoop_records_nodup _ _ _ _ h

theorem fetchLoop_records_nodup (lct : Option Nat) :
    ∀ (n : Nat) (envs : List AttemptEnv) (recs : List MailRecord),
      (recs.map MailRecord.mail_key).Nodup →
      (((fetchLoop lct n envs recs).2).map MailRecord.mail_key).Nodup := by
  intro n
  induction n with
  | zero => intro envs recs h; exact h
  | succ k ih =>
    intro envs recs h
    simp only [fetchLoop]
    split
    · exact fetchAttempt_records_nodup _ _ _ h
    · simp
    · exact ih _ _ (fetchAttempt_records_nodup _ _ _ h)

/-- Claim C3: within one fetch pass no two retained records share an
identity key (subject, sender and received-timestamp-or-sentinel joined by
`|`), and for every batch of fetched messages the retained records are
exactly the first occurrence of each key, in order — later occurrences are
dropped silently. -/
theorem c3_dedup_first_occurrence :
    (∀ (envs : List AttemptEnv) (lct : Option Nat),
        (((fetch_emails envs lct).2).map MailRecord.mail_key).Nodup) ∧
      ∀ (total i : Nat) (pairs : List (Nat × FetchOutcome)),
        (msgLoop total i pairs []).2 =
          (firstOccurrences recKey (parsedOf pairs) []).map
            fun mt => toRecord mt.1 mt.2 := by
  constructor
  · intro envs lct
    exact fetchLoop_records_nodup _ 3 envs [] (by simp)
  · intro total i pairs
    simpa using msgLoop_records total pairs i []

/-- Claim C6 (evidence of the code bug): `parsedate_to_datetime` raises on
an absent Date header, so the per-message handler catches the exception and
drops the message instead of retaining it with an absent timestamp — the
batch continues with the remaining messages, but a message with a missing
or unparseable Date header is never retained. -/
theorem c6_absent_date_message_dropped :
    parsedate_to_datetime DateHeader.absent =
      Except.error "Invalid date value or format" ∧
    (msgLoop 2 0 [(1, .ok absentDateMsg), (2, .ok (goodMsg "good"))] []).2.map
      MailRecord.subject = ["good"] ∧
    (msgLoop 1 0 [(1, .ok absentDateMsg)] []).2 = [] :=
  ⟨rfl, rfl, rfl⟩

/-- Claim C9: the auth-string builder returns exactly the byte string
`user=<address>\x01auth=Bearer <token>\x01\x01`, with literal
control-character separators and no escaping of the address or token. -/
theorem c9_auth_string_exact :
    ∀ user token : String,
      (generate_auth_string user token).data = authStringSpecChars user token := by
  intro user token
  have h1 : ("\x01auth=Bearer " : String).data =
      Char.ofNat 1 :: ("auth=Bearer " : String).data := by decide
  have h2 : ("\x01\x01" : String).data = [Char.ofNat 1, Char.ofNat 1] := by
    decide
  simp only [generate_auth_string, authStringSpecChars, String.data_append,
    h1, h2]
  simp [List.append_assoc]

/-- Claim C4: when the token-refresh response carries an error field or the
exchange raises, the token refresher returns an absent-token signal from its
single exchange (no retry), and the pass returns `success=False` without
opening any mail session. -/
theorem c4_token_failure_aborts_pass :
    ∀ (addr eid : String) (ce : CheckEnv),
      tokenFails ce.tokenResp = true →
      get_new_access_token ce.tokenResp = none ∧
      (check_mail addr eid ce).2.success = false ∧
      connectCount (check_mail addr eid ce).1 = 0 ∧
      tokenExchangeCount (check_mail addr eid ce).1 = 1 := by
  intro addr eid ce h
  have hnone : get_new_access_token ce.tokenResp = none := by
    rcases hce : ce.tokenResp with _ | ⟨err, tok⟩
    · rfl
    · rw [hce] at h
      simp only [tokenFails, Option.isSome_iff_exists] at h
      obtain ⟨e, he⟩ := h
      rw [he]
      rfl
  refine ⟨hnone, ?_, ?_, ?_⟩ <;> simp [check_mail, hnone, connectCount,
    tokenExchangeCount]

theorem c4_witness :
    tokenFails ceTokenErr.tokenResp = true ∧
    (get_new_access_token ceTokenErr.tokenResp = none ∧
      (check_mail "a" "1" ceTokenErr).2.success = false ∧
      connectCount (check_mail "a" "1" ceTokenErr).1 = 0 ∧
      tokenExchangeCount (check_mail "a" "1" ceTokenErr).1 = 1) :=
  ⟨by decide, c4_token_failure_aborts_pass "a" "1" ceTokenErr (by decide)⟩

theorem fetchIds_append (l1 l2 : List FEvent) :
    fetchIds (l1 ++ l2) = fetchIds l1 ++ fetchIds l2 :=
  List.filterMap_append l1 l2 _

theorem rawProgress_append (l1 l2 : List FEvent) :
    rawProgress (l1 ++ l2) = rawProgress l1 ++ rawProgress l2 :=
  List.filterMap_append l1 l2 _

theorem searchCmdsF_append (l1 l2 : List FEvent) :
    searchCmdsF (l1 ++ l2) = searchCmdsF l1 ++ searchCmdsF l2 :=
  List.filterMap_append l1 l2 _

theorem connectCountF_append (l1 l2 : List FEvent) :
    connectCountF (l1 ++ l2) = connectCountF l1 + connectCountF l2 :=
  List.countP_append _ _ _

theorem sleepCountF_append (l1 l2 : List FEvent) :
    sleepCountF (l1 ++ l2) = sleepCountF l1 + sleepCountF l2 :=
  List.countP_append _ _ _

theorem fetchAttempt_exn_connect (a : AttemptEnv) (lct : Option Nat)
    (recs : List MailRecord) (hc : a.connect = false) :
    fetchAttempt a lct recs =
      ([FEvent.progressRaw 10 "连接服务器...", FEvent.connectAttempt],
        recs, .exn) := by
  simp [fetchAttempt, hc]

theorem fetchAttempt_exn_select (a : AttemptEnv) (lct : Option Nat)
    (recs : List MailRecord) (hc : a.connect = true)
    (hs : a.inboxSelect = false) :
    fetchAttempt a lct recs =
      ([FEvent.progressRaw 10 "连接服务器...", FEvent.connectAttempt,
        FEvent.progressRaw 20 "检查垃圾邮件..."] ++ junkLoop junk_aliases a.junk ++
        [FEvent.progressRaw 40 "正在获取收件箱...", FEvent.inboxSelect],
        recs, .exn) := by
  simp [fetchAttempt, hc, hs, List.append_assoc]

theorem fetchAttempt_exn_search (a : AttemptEnv) (lct : Option Nat)
    (recs : List MailRecord) (hc : a.connect = true)
    (hs : a.inboxSelect = true) (hq : a.inboxSearch = .exn) :
    fetchAttempt a lct recs =
      ([FEvent.progressRaw 10 "连接服务器...", FEvent.connectAttempt,
        FEvent.progressRaw 20 "检查垃圾邮件..."] ++ junkLoop junk_aliases a.junk ++
        [FEvent.progressRaw 40 "正在获取收件箱...", FEvent.inboxSelect,
          searchEvent lct],
        recs, .exn) := by
  simp [fetchAttempt, hc, hs, hq, List.append_assoc]

theorem fetchAttempt_early (a : AttemptEnv) (lct : Option Nat)
    (recs : List MailRecord) (hc : a.connect = true)
    (hs : a.inboxSelect = true) (hq : a.inboxSearch = .notOk) :
    fetchAttempt a lct recs =
      ([FEvent.progressRaw 10 "连接服务器...", FEvent.connectAttempt,
        FEvent.progressRaw 20 "检查垃圾邮件..."] ++ junkLoop junk_aliases a.junk ++
        [FEvent.progressRaw 40 "正在获取收件箱...", FEvent.inboxSelect,
          searchEvent lct],
        recs, .earlyEmpty) := by
  simp [fetchAttempt, hc, hs, hq, List.append_assoc]

theorem fetchAttempt_completed (a : AttemptEnv) (lct : Option Nat)
    (recs : List MailRecord) (pairs : List (Nat × FetchOutcome))
    (hc : a.connect = true) (hs : a.inboxSelect = true)
    (hq : a.inboxSearch = .ok pairs) :
    fetchAttempt a lct recs =
      ([FEvent.progressRaw 10 "连接服务器...", FEvent.connectAttempt,
        FEvent.progressRaw 20 "检查垃圾邮件..."] ++ junkLoop junk_aliases a.junk ++
        [FEvent.progressRaw 40 "正在获取收件箱...", FEvent.inboxSelect,
          searchEvent lct] ++
        (msgLoop (capIds pairs).length 0 (capIds pairs) recs).1 ++
        [FEvent.progressRaw 90 "完成获取"],
        (msgLoop (capIds pairs).length 0 (capIds pairs) recs).2, .completed) := by
  simp [fetchAttempt, hc, hs, hq, List.append_assoc]

/-- Claim C5 (amended): for every inbox search result, at most the most
recent 100 message identifiers are processed (the capped window is a suffix
of the server's id list), and they are processed in the server's own order
— oldest first within the window — not reversed. -/
theorem c5_cap_and_processing_order :
    ∀ pairs : List (Nat × FetchOutcome),
      fetchIds (fetchAttempt (benignAttempt pairs) none []).1 =
        (capIds pairs).map Prod.fst ∧
      (capIds pairs).length ≤ 100 ∧
      capIds pairs <:+ pairs := by
  intro pairs
  refine ⟨?_, ?_, ?_⟩
  · rw [fetchAttempt_completed (benignAttempt pairs) none [] pairs rfl rfl rfl]
    simp only [fetchIds_append]
    rw [junkLoop_fetchIds,
      msgLoop_fetchIds (capIds pairs).length (capIds pairs) 0 []]
    simp [fetchIds, List.filterMap_cons, searchEvent]
  · by_cases h : pairs.length > 100
    · simp only [capIds, if_pos h, List.length_drop]
      omega
    · simp only [capIds, if_neg h]
      omega
  · by_cases h : pairs.length > 100
    · simp only [capIds, if_pos h]
      exact List.drop_suffix _ _
    · simp only [capIds, if_neg h]
      exact List.suffix_refl _

/-- Claim C5, counterexample to the stated processing order: a 3-id search
result is processed as `[1, 2, 3]` — the server's order — and not as the
reversed `[3, 2, 1]` the claim prescribes. -/
theorem c5_counterexample :
    fetchIds (fetchAttempt (benignAttempt
      [(1, .ok (goodMsg "a")), (2, .ok (goodMsg "b")), (3, .ok (goodMsg "c"))])
      none []).1 = [1, 2, 3] ∧
    ([1, 2, 3] : List Nat) ≠ [3, 2, 1] :=
  ⟨rfl, by decide⟩

/-- Claim C2 (amended): for a multipart message, when the accumulated HTML
buffer is non-empty after trimming, the returned content is that HTML
buffer with the HTML-format footer appended exactly when attachments were
collected; when the HTML buffer trims to empty — including the case of a
whitespace-only HTML part — the returned content is the accumulated
plain-text buffer with the plain-text footer under the same condition, so
the footer's format always matches the body's own format; in particular a
plain-text-only message with one attachment `report.pdf` ends with a
plain-text footer containing `report.pdf`. -/
theorem c2_html_preferred_matching_footer :
    (∀ parts : List MimePart, stripEmpty (walkParts parts).2.1 = false →
        _extract_rich_content (.multipart parts) =
          (if (walkParts parts).2.2.isEmpty then (walkParts parts).2.1
           else (walkParts parts).2.1 ++ htmlFooter (walkParts parts).2.2)) ∧
      (∀ parts : List MimePart, stripEmpty (walkParts parts).2.1 = true →
        _extract_rich_content (.multipart parts) =
          (if (walkParts parts).2.2.isEmpty then (walkParts parts).1
           else (walkParts parts).1 ++ plainFooter (walkParts parts).2.2)) ∧
      strEndsWith (_extract_rich_content reportMsg)
        (plainFooter ["report.pdf"]) = true ∧
      strContains (plainFooter ["report.pdf"]) "report.pdf" = true := by
  refine ⟨?_, ?_, ?_, ?_⟩
  · intro parts h
    by_cases ha : (walkParts parts).2.2.isEmpty <;>
      simp [_extract_rich_content, assembleContent, h, ha]
  · intro parts h
    by_cases ha : (walkParts parts).2.2.isEmpty <;>
      simp [_extract_rich_content, assembleContent, h, ha]
  · rfl
  · rfl

/-- Claim C2, counterexample to the stated "never the plain-text body": a
message with both an HTML part (whitespace-only) and a plain-text part
returns the plain-text body, because the HTML buffer trims to empty. -/
theorem c2_counterexample :
    (walkParts [wsHtmlPart, textPart "hello"]).2.1 = " " ∧
    (walkParts [wsHtmlPart, textPart "hello"]).1 = "hello" ∧
    _extract_rich_content (.multipart [wsHtmlPart, textPart "hello"]) =
      "hello" ∧
    (" " : String) ≠ "hello" :=
  ⟨rfl, rfl, rfl, by decide⟩

theorem copyOkCount_append (l1 l2 : List FEvent) :
    copyOkCount (l1 ++ l2) = copyOkCount l1 + copyOkCount l2 :=
  List.countP_append _ _ _

theorem junkAlias_copy_le_one (name : String) (a : AliasEnv) :
    copyOkCount (junkAlias name a).1 ≤ 1 := by
  rcases a with ⟨sel, sea, cp, st, ex⟩
  cases sel <;> rcases sea with _ | _ | ids <;> (try cases ids) <;>
    cases cp <;> cases st <;> cases ex <;> simp [junkAlias, copyOkCount]

theorem junkAlias_noExn_continue_no_copy (name : String) (a : AliasEnv)
    (h : aliasNoExn a = true) (hc : (junkAlias name a).2 = true) :
    copyOkCount (junkAlias name a).1 = 0 := by
  rcases a with ⟨sel, sea, cp, st, ex⟩
  cases sel <;> rcases sea with _ | _ | ids <;> (try cases ids) <;>
    cases cp <;> cases st <;> cases ex <;>
    simp_all [junkAlias, aliasNoExn, copyOkCount]

theorem junkAlias_exn_continues (name : String) (a : AliasEnv)
    (h : aliasNoExn a = false) : (junkAlias name a).2 = true := by
  rcases a with ⟨sel, sea, cp, st, ex⟩
  cases sel <;> rcases sea with _ | _ | ids <;> (try cases ids) <;>
    cases cp <;> cases st <;> cases ex <;>
    simp_all [junkAlias, aliasNoExn]

theorem junkLoop_copy_le_one :
    ∀ (names : List String) (envs : List AliasEnv),
      (∀ b ∈ envs, aliasNoExn b = true) →
      copyOkCount (junkLoop names envs) ≤ 1 := by
  intro names
  induction names with
  | nil => intro envs _; exact Nat.zero_le 1
  | cons n ns ih =>
    intro envs h
    have ha : aliasNoExn (envs.headD defaultAlias) = true := by
      cases envs with
      | nil => decide
      | cons b bs => exact h b (List.mem_cons_self b bs)
    simp only [junkLoop]
    split
    · rw [copyOkCount_append,
        junkAlias_noExn_continue_no_copy n _ ha (by assumption)]
      exact Nat.zero_add _ ▸ ih envs.tail
        fun b hb => h b (List.mem_of_mem_tail hb)
    · exact junkAlias_copy_le_one n _

theorem fetchAttempt_junk_irrelevant (a : AttemptEnv)
    (j j' : List AliasEnv) (lct : Option Nat) (recs : List MailRecord) :
    (fetchAttempt { a with junk := j } lct recs).2 =
      (fetchAttempt { a with junk := j' } lct recs).2 := by
  rcases a with ⟨ac, aj, asel, asea⟩
  cases ac <;> cases asel <;> rcases asea with _ | _ | pairs <;>
    simp [fetchAttempt]

/-- Claim C8 (amended): when every probed alias runs without an exception,
at most one junk folder is batch-copied per pass (the scan stops at the
first alias that selects successfully and completes); an exception while
processing one alias — even after a successful select — is swallowed and
the scan proceeds to the next alias, so a later alias may also be
consolidated; and the junk stage never affects the attempt's records or
outcome, so inbox retrieval always still proceeds. -/
theorem c8_junk_scan_best_effort :
    (∀ envs : List AliasEnv, (∀ b ∈ envs, aliasNoExn b = true) →
        copyOkCount (junkLoop junk_aliases envs) ≤ 1) ∧
      (∀ (a : AttemptEnv) (j j' : List AliasEnv) (lct : Option Nat)
          (recs : List MailRecord),
        (fetchAttempt { a with junk := j } lct recs).2 =
          (fetchAttempt { a with junk := j' } lct recs).2) ∧
      ∀ (name : String) (names : List String) (a : AliasEnv)
          (envs : List AliasEnv), aliasNoExn a = false →
        junkLoop names envs <:+ junkLoop (name :: names) (a :: envs) := by
  refine ⟨fun envs h => junkLoop_copy_le_one junk_aliases envs h,
    fetchAttempt_junk_irrelevant, ?_⟩
  intro name names a envs h
  refine ⟨(junkAlias name a).1, ?_⟩
  simp [junkLoop, junkAlias_exn_continues name a h]

theorem c8_witness :
    copyOkCount (junkLoop junk_aliases [aliasGood]) ≤ 1 ∧
    (fetchAttempt { benignAttempt [] with junk := [aliasStoreRaise] }
        none []).2 =
      (fetchAttempt { benignAttempt [] with junk := [aliasGood] }
        none []).2 ∧
    junkLoop ["Junk"] [] <:+
      junkLoop ("Junk Email" :: ["Junk"]) (aliasStoreRaise :: []) :=
  ⟨c8_junk_scan_best_effort.1 [aliasGood] (by decide),
    c8_junk_scan_best_effort.2.1 (benignAttempt []) [aliasStoreRaise]
      [aliasGood] none [],
    c8_junk_scan_best_effort.2.2 "Junk Email" ["Junk"] aliasStoreRaise []
      (by decide)⟩

/-- Claim C8, counterexample to "at most one junk folder is consolidated
per pass (the scan stops at the first alias that selects successfully)":
when the first alias selects and copies but then raises in `store`, the
swallowed exception sends the scan on to the next alias, which also
selects and copies — two successful batch copies in one pass. -/
theorem c8_counterexample :
    copyOkCount (junkLoop junk_aliases [aliasStoreRaise, aliasGood]) = 2 ∧
    aliasStoreRaise.select = SelectR.ok :=
  ⟨rfl, rfl⟩

theorem fetchAttempt_raises (a : AttemptEnv) (lct : Option Nat)
    (recs : List MailRecord) (h : attemptRaises a = true) :
    (fetchAttempt a lct recs).2.1 = recs ∧
    (fetchAttempt a lct recs).2.2 = .exn ∧
    connectCountF (fetchAttempt a lct recs).1 = 1 ∧
    sleepCountF (fetchAttempt a lct recs).1 = 0 := by
  cases hc : a.connect with
  | false =>
    rw [fetchAttempt_exn_connect a lct recs hc]
    exact ⟨rfl, rfl, rfl, rfl⟩
  | true =>
    cases hs : a.inboxSelect with
    | false =>
      rw [fetchAttempt_exn_select a lct recs hc hs]
      refine ⟨rfl, rfl, ?_, ?_⟩
      · rw [connectCountF_append, connectCountF_append,
          junkLoop_connectCount junk_aliases a.junk]
        rfl
      · rw [sleepCountF_append, sleepCountF_append,
          junkLoop_sleepCount junk_aliases a.junk]
        rfl
    | true =>
      cases hq : a.inboxSearch with
      | exn =>
        rw [fetchAttempt_exn_search a lct recs hc hs hq]
        refine ⟨rfl, rfl, ?_, ?_⟩
        · rw [connectCountF_append, connectCountF_append,
            junkLoop_connectCount junk_aliases a.junk]
          cases lct <;> rfl
        · rw [sleepCountF_append, sleepCountF_append,
            junkLoop_sleepCount junk_aliases a.junk]
          cases lct <;> rfl
      | notOk => simp [attemptRaises, hc, hs, hq, isSearchExn] at h
      | ok pairs => simp [attemptRaises, hc, hs, hq, isSearchExn] at h

theorem fetchLoop_all_raise (lct : Option Nat) :
    ∀ (n : Nat) (envs : List AttemptEnv) (recs : List MailRecord),
      (∀ a ∈ envs, attemptRaises a = true) →
      (fetchLoop lct n envs recs).2 = recs ∧
      connectCountF (fetchLoop lct n envs recs).1 = n ∧
      sleepCountF (fetchLoop lct n envs recs).1 = n := by
  intro n
  induction n with
  | zero => intro envs recs _; exact ⟨rfl, rfl, rfl⟩
  | succ k ih =>
    intro envs recs h
    have ha : attemptRaises (envs.headD defaultAttempt) = true := by
      cases envs with
      | nil => decide
      | cons b bs => exact h b (List.mem_cons_self b bs)
    obtain ⟨h1, h2, h3, h4⟩ := fetchAttempt_raises (envs.headD defaultAttempt)
      lct recs ha
    obtain ⟨i1, i2, i3⟩ := ih envs.tail
      ((fetchAttempt (envs.headD defaultAttempt) lct recs).2.1)
      fun a hb => h a (List.mem_of_mem_tail hb)
    simp only [fetchLoop, h2]
    refine ⟨by rw [i1, h1], ?_, ?_⟩
    · rw [connectCountF_append, connectCountF_append, h3, i2,
        show connectCountF [FEvent.sleep1, FEvent.logout] = 0 from rfl]
      omega
    · rw [sleepCountF_append, sleepCountF_append, h4, i3,
        show sleepCountF [FEvent.sleep1, FEvent.logout] = 1 from rfl]
      omega

theorem connectCount_map_fetch (l : List FEvent) :
    connectCount (l.map mapFetchEvent) = connectCountF l := by
  unfold connectCount connectCountF
  rw [List.countP_map]
  exact List.countP_congr fun e _ => by cases e <;> rfl

theorem sleepCount_map_fetch (l : List FEvent) :
    sleepCount (l.map mapFetchEvent) = sleepCountF l := by
  unfold sleepCount sleepCountF
  rw [List.countP_map]
  exact List.countP_congr fun e _ => by cases e <;> rfl

theorem connectCount_append (l1 l2 : List Event) :
    connectCount (l1 ++ l2) = connectCount l1 + connectCount l2 :=
  List.countP_append _ _ _

theorem sleepCount_append (l1 l2 : List Event) :
    sleepCount (l1 ++ l2) = sleepCount l1 + sleepCount l2 :=
  List.countP_append _ _ _

theorem progressValues_append (l1 l2 : List Event) :
    progressValues (l1 ++ l2) = progressValues l1 ++ progressValues l2 :=
  List.filterMap_append l1 l2 _

theorem searchCmds_append (l1 l2 : List Event) :
    searchCmds (l1 ++ l2) = searchCmds l1 ++ searchCmds l2 :=
  List.filterMap_append l1 l2 _

theorem check_mail_success (addr eid : String) (ce : CheckEnv)
    (htok : (get_new_access_token ce.tokenResp).getD "" ≠ "")
    (hupd : ce.updateTokenOk = true) :
    check_mail addr eid ce =
      ([Event.progressOut 0 "正在获取访问令牌...", Event.tokenExchange,
        Event.progressOut 10 "开始获取邮件..."] ++
        (fetch_emails ce.attempts none).1.map mapFetchEvent ++
        [Event.progressOut 90
          ("获取到" ++ toString (fetch_emails ce.attempts none).2.length ++
            "封邮件，正在保存..."),
         Event.progressOut 100
          ("完成，共处理" ++
            toString (fetch_emails ce.attempts none).2.length ++
            "封邮件，新增" ++
            toString (saveLoop (fetch_emails ce.attempts none).2
              ce.addOutcomes) ++ "封")],
       { success := true
         message := "完成，共处理" ++
           toString (fetch_emails ce.attempts none).2.length ++
           "封邮件，新增" ++
           toString (saveLoop (fetch_emails ce.attempts none).2
             ce.addOutcomes) ++ "封"
         total := some (fetch_emails ce.attempts none).2.length
         saved := some (saveLoop (fetch_emails ce.attempts none).2
           ce.addOutcomes) }) := by
  simp only [check_mail, if_neg htok, hupd, Bool.not_true, Bool.false_eq_true,
    if_false, List.append_assoc, List.cons_append, List.nil_append]

/-- Claim C1 (amended): in a pass in which every connect+operate attempt
raises, the session open is attempted exactly 3 times, each failed attempt
is followed by one fixed 1-second wait, and the pass's terminal result has
`success=True` with zero records — retry exhaustion is silently reported as
an empty (successful) pass, not as an error result. -/
theorem c1_retry_exhaustion_silent_success :
    ∀ (addr eid : String) (ce : CheckEnv),
      (get_new_access_token ce.tokenResp).getD "" ≠ "" →
      ce.updateTokenOk = true →
      (∀ a ∈ ce.attempts, attemptRaises a = true) →
      connectCount (check_mail addr eid ce).1 = 3 ∧
      sleepCount (check_mail addr eid ce).1 = 3 ∧
      (check_mail addr eid ce).2 =
        { success := true, message := "完成，共处理0封邮件，新增0封"
          total := some 0, saved := some 0 } := by
  intro addr eid ce htok hupd hall
  obtain ⟨hrec, hcc, hsc⟩ := fetchLoop_all_raise none 3 ce.attempts [] hall
  have hfe2 : (fetch_emails ce.attempts none).2 = [] := hrec
  have hfe1c : connectCountF (fetch_emails ce.attempts none).1 = 3 := hcc
  have hfe1s : sleepCountF (fetch_emails ce.attempts none).1 = 3 := hsc
  rw [check_mail_success addr eid ce htok hupd]
  refine ⟨?_, ?_, ?_⟩
  · rw [connectCount_append, connectCount_append, connectCount_map_fetch,
      hfe1c]
    rfl
  · rw [sleepCount_append, sleepCount_append, sleepCount_map_fetch, hfe1s]
    rfl
  · rw [show ([Event.progressOut 0 "正在获取访问令牌...", Event.tokenExchange,
      Event.progressOut 10 "开始获取邮件..."] ++
      (fetch_emails ce.attempts none).1.map mapFetchEvent ++
      [Event.progressOut 90
        ("获取到" ++ toString (fetch_emails ce.attempts none).2.length ++
          "封邮件，正在保存..."),
       Event.progressOut 100
        ("完成，共处理" ++
          toString (fetch_emails ce.attempts none).2.length ++
          "封邮件，新增" ++
          toString (saveLoop (fetch_emails ce.attempts none).2
            ce.addOutcomes) ++ "封")],
     ({ success := true
        message := "完成，共处理" ++
          toString (fetch_emails ce.attempts none).2.length ++
          "封邮件，新增" ++
          toString (saveLoop (fetch_emails ce.attempts none).2
            ce.addOutcomes) ++ "封"
        total := some (fetch_emails ce.attempts none).2.length
        saved := some (saveLoop (fetch_emails ce.attempts none).2
          ce.addOutcomes) } : CheckResult)).2 =
      ({ success := true
         message := "完成，共处理" ++
           toString (fetch_emails ce.attempts none).2.length ++
           "封邮件，新增" ++
           toString (saveLoop (fetch_emails ce.attempts none).2
             ce.addOutcomes) ++ "封"
         total := some (fetch_emails ce.attempts none).2.length
         saved := some (saveLoop (fetch_emails ce.attempts none).2
           ce.addOutcomes) } : CheckResult) from rfl, hfe2, List.length_nil,
      show saveLoop ([] : List MailRecord) ce.addOutcomes = 0 from rfl]
    rfl

theorem c1_witness :
    ((get_new_access_token ceAllFail.tokenResp).getD "" ≠ "" ∧
      ceAllFail.updateTokenOk = true ∧
      ∀ a ∈ ceAllFail.attempts, attemptRaises a = true) ∧
    connectCount (check_mail "a" "1" ceAllFail).1 = 3 ∧
    sleepCount (check_mail "a" "1" ceAllFail).1 = 3 ∧
    (check_mail "a" "1" ceAllFail).2 =
      { success := true, message := "完成，共处理0封邮件，新增0封"
        total := some 0, saved := some 0 } :=
  ⟨⟨by decide, rfl, by decide⟩,
    c1_retry_exhaustion_silent_success "a" "1" ceAllFail (by decide) rfl
      (by decide)⟩

/-- Claim C1, counterexample to the stated terminal result: a pass whose
three attempts all raise still ends with `success=True` (and zero records),
not `success=False` as the claim states. -/
theorem c1_counterexample :
    (ceAllFail.attempts.all attemptRaises = true ∧
      ceAllFail.attempts.length = 3) ∧
    (check_mail "a" "1" ceAllFail).2.success = true ∧
    (check_mail "a" "1" ceAllFail).2.total = some 0 :=
  ⟨⟨rfl, rfl⟩, rfl, rfl⟩

theorem c2_witness :
    (stripEmpty (walkParts [htmlPart "<p>hi</p>", textPart "hello"]).2.1 =
        false ∧
      _extract_rich_content
          (.multipart [htmlPart "<p>hi</p>", textPart "hello"]) =
        (if (walkParts [htmlPart "<p>hi</p>", textPart "hello"]).2.2.isEmpty
         then (walkParts [htmlPart "<p>hi</p>", textPart "hello"]).2.1
         else (walkParts [htmlPart "<p>hi</p>", textPart "hello"]).2.1 ++
           htmlFooter
             (walkParts [htmlPart "<p>hi</p>", textPart "hello"]).2.2)) ∧
    stripEmpty (walkParts [textPart "hello", pdfAttachment "a.pdf"]).2.1 =
        true ∧
      _extract_rich_content
          (.multipart [textPart "hello", pdfAttachment "a.pdf"]) =
        (if (walkParts [textPart "hello", pdfAttachment "a.pdf"]).2.2.isEmpty
         then (walkParts [textPart "hello", pdfAttachment "a.pdf"]).1
         else (walkParts [textPart "hello", pdfAttachment "a.pdf"]).1 ++
           plainFooter
             (walkParts [textPart "hello", pdfAttachment "a.pdf"]).2.2) :=
  ⟨⟨rfl, c2_html_preferred_matching_footer.1
      [htmlPart "<p>hi</p>", textPart "hello"] rfl⟩,
    rfl, c2_html_preferred_matching_footer.2.1
      [textPart "hello", pdfAttachment "a.pdf"] rfl⟩

theorem searchCmds_map_fetch :
    ∀ l : List FEvent, searchCmds (l.map mapFetchEvent) = searchCmdsF l := by
  intro l
  induction l with
  | nil => rfl
  | cons e rest ih =>
    cases e <;>
      simp only [List.map_cons, mapFetchEvent, searchCmds, searchCmdsF,
        List.filterMap_cons] <;>
      first
        | exact ih
        | exact congrArg _ ih

theorem progressValues_map_fetch :
    ∀ l : List FEvent,
      progressValues (l.map mapFetchEvent) =
        (rawProgress l).map mapProgress := by
  intro l
  induction l with
  | nil => rfl
  | cons e rest ih =>
    cases e <;>
      simp only [List.map_cons, mapFetchEvent, progressValues, rawProgress,
        List.filterMap_cons] <;>
      first
        | exact ih
        | exact congrArg _ ih

theorem fetchAttempt_search_all (a : AttemptEnv) (recs : List MailRecord) :
    (searchCmdsF (fetchAttempt a none recs).1).all SearchCmd.isAll = true := by
  cases hc : a.connect with
  | false => rw [fetchAttempt_exn_connect a none recs hc]; rfl
  | true =>
    cases hs : a.inboxSelect with
    | false =>
      rw [fetchAttempt_exn_select a none recs hc hs]
      rw [searchCmdsF_append, searchCmdsF_append,
        junkLoop_searchCmds junk_aliases a.junk]
      rfl
    | true =>
      cases hq : a.inboxSearch with
      | exn =>
        rw [fetchAttempt_exn_search a none recs hc hs hq]
        rw [searchCmdsF_append, searchCmdsF_append,
          junkLoop_searchCmds junk_aliases a.junk]
        rfl
      | notOk =>
        rw [fetchAttempt_early a none recs hc hs hq]
        rw [searchCmdsF_append, searchCmdsF_append,
          junkLoop_searchCmds junk_aliases a.junk]
        rfl
      | ok pairs =>
        rw [fetchAttempt_completed a none recs pairs hc hs hq]
        rw [searchCmdsF_append, searchCmdsF_append, searchCmdsF_append,
          searchCmdsF_append, junkLoop_searchCmds junk_aliases a.junk,
          msgLoop_searchCmds (capIds pairs).length 0 (capIds pairs) recs]
        rfl

theorem fetchLoop_search_all :
    ∀ (n : Nat) (envs : List AttemptEnv) (recs : List MailRecord),
      (searchCmdsF (fetchLoop none n envs recs).1).all SearchCmd.isAll =
        true := by
  intro n
  induction n with
  | zero => intro envs recs; rfl
  | succ k ih =>
    intro envs recs
    simp only [fetchLoop]
    split
    · rw [searchCmdsF_append, List.all_append]
      rw [fetchAttempt_search_all (envs.headD defaultAttempt) recs]
      rfl
    · rw [searchCmdsF_append, List.all_append]
      rw [fetchAttempt_search_all (envs.headD defaultAttempt) recs]
      rfl
    · rw [searchCmdsF_append, searchCmdsF_append, List.all_append,
        List.all_append]
      rw [fetchAttempt_search_all (envs.headD defaultAttempt) recs, ih]
      rfl

/-- Claim C10: the orchestrator invokes the fetch without an incremental
lower-bound timestamp (the `last_check_time` parameter keeps its `None`
default), so in every pass every INBOX search it causes is the
unconditional `ALL` — even though the orchestrator updates the last-check
time at the end of each pass; the `SINCE`-date branch exists in
`fetch_emails` (second conjunct) but is unreachable from `check_mail`. -/
theorem c10_orchestrator_search_always_all :
    (∀ (addr eid : String) (ce : CheckEnv),
        (searchCmds (check_mail addr eid ce).1).all SearchCmd.isAll = true) ∧
      searchCmdsF (fetch_emails [benignAttempt []] (some 1)).1 =
        [SearchCmd.since (format_date_for_imap_search 1)] := by
  constructor
  · intro addr eid ce
    by_cases htok : (get_new_access_token ce.tokenResp).getD "" = ""
    · simp [check_mail, htok, searchCmds]
    · by_cases hupd : ce.updateTokenOk = true
      · rw [check_mail_success addr eid ce htok hupd, searchCmds_append,
          searchCmds_append, searchCmds_map_fetch, List.all_append,
          List.all_append]
        rw [show (fetch_emails ce.attempts none).1 =
          (fetchLoop none 3 ce.attempts []).1 from rfl]
        rw [fetchLoop_search_all 3 ce.attempts []]
        rfl
      · have hupd' : ce.updateTokenOk = false := by
          cases h : ce.updateTokenOk
          · rfl
          · exact absurd h hupd
        simp [check_mail, htok, hupd', searchCmds]
  · rfl

theorem mapProgress_mono {p q : Nat} (h : p ≤ q) :
    mapProgress p ≤ mapProgress q := by
  unfold mapProgress
  omega

theorem chain'_le_append {l1 l2 : List Nat}
    (h1 : List.Chain' (· ≤ ·) l1) (h2 : List.Chain' (· ≤ ·) l2)
    (hb : ∀ x ∈ l1, ∀ y ∈ l2, x ≤ y) :
    List.Chain' (· ≤ ·) (l1 ++ l2) := by
  rw [List.chain'_append]
  exact ⟨h1, h2, fun x hx y hy =>
    hb x (List.mem_of_mem_getLast? hx) y (List.mem_of_mem_head? hy)⟩

theorem msgLoop_progress (total : Nat) :
    ∀ (pairs : List (Nat × FetchOutcome)) (i : Nat) (recs : List MailRecord),
      i + pairs.length ≤ total →
      (∀ p ∈ rawProgress (msgLoop total i pairs recs).1,
          40 + i * 50 / total ≤ p ∧ p ≤ 89) ∧
        List.Chain' (· ≤ ·) (rawProgress (msgLoop total i pairs recs).1) := by
  intro pairs
  induction pairs with
  | nil =>
    intro i recs _
    constructor
    · intro p hp
      simp [msgLoop, rawProgress] at hp
    · simp [msgLoop, rawProgress]
  | cons pr rest ih =>
    intro i recs h
    rcases pr with ⟨mid, fo⟩
    simp only [List.length_cons] at h
    have htot : total ≠ 0 := by omega
    have hi : i < total := by omega
    have hstep : rawProgress (msgLoop total i ((mid, fo) :: rest) recs).1 =
        (40 + i * 50 / total) ::
          rawProgress (msgLoop total (i + 1) rest (msgStep recs fo)).1 := by
      simp only [msgLoop, rawProgress, List.filterMap_cons, if_pos htot]
    have hub : i * 50 / total < 50 := by
      rw [Nat.div_lt_iff_lt_mul (Nat.pos_of_ne_zero htot)]
      omega
    have hmono : 40 + i * 50 / total ≤ 40 + (i + 1) * 50 / total := by
      have := Nat.div_le_div_right (c := total)
        (show i * 50 ≤ (i + 1) * 50 by omega)
      omega
    obtain ⟨ihb, ihc⟩ := ih (i + 1) (msgStep recs fo) (by omega)
    rw [hstep]
    constructor
    · intro p hp
      rcases List.mem_cons.mp hp with rfl | hp
      · exact ⟨le_refl _, by omega⟩
      · obtain ⟨h1, h2⟩ := ihb p hp
        exact ⟨le_trans hmono h1, h2⟩
    · rw [List.chain'_cons']
      refine ⟨?_, ihc⟩
      intro y hy
      have := (ihb y (List.mem_of_mem_head? hy)).1
      omega

theorem fetchAttempt_progress (a : AttemptEnv) (lct : Option Nat)
    (recs : List MailRecord) (hc : a.connect = true)
    (hs : a.inboxSelect = true) (hq : isSearchExn a.inboxSearch = false) :
    (∀ p ∈ rawProgress (fetchAttempt a lct recs).1, 10 ≤ p ∧ p ≤ 90) ∧
      List.Chain' (· ≤ ·) (rawProgress (fetchAttempt a lct recs).1) := by
  have hB : rawProgress [FEvent.progressRaw 40 "正在获取收件箱...",
      FEvent.inboxSelect, searchEvent lct] = [40] := by
    cases lct <;> rfl
  cases hq' : a.inboxSearch with
  | exn => rw [hq'] at hq; simp [isSearchExn] at hq
  | notOk =>
    have hraw : rawProgress (fetchAttempt a lct recs).1 = [10, 20, 40] := by
      rw [fetchAttempt_early a lct recs hc hs hq', rawProgress_append,
        rawProgress_append, junkLoop_rawProgress, hB]
      rfl
    rw [hraw]
    constructor
    · intro p hp
      simp only [List.mem_cons, List.not_mem_nil, or_false] at hp
      rcases hp with rfl | rfl | rfl <;> omega
    · simp [List.chain'_cons]
  | ok pairs =>
    have h0 : 40 + 0 * 50 / (capIds pairs).length = 40 := by simp
    obtain ⟨mb, mc⟩ := msgLoop_progress (capIds pairs).length (capIds pairs) 0
      recs (by omega)
    rw [h0] at mb
    have hraw : rawProgress (fetchAttempt a lct recs).1 =
        10 :: 20 :: 40 ::
          (rawProgress (msgLoop (capIds pairs).length 0 (capIds pairs)
            recs).1 ++ [90]) := by
      rw [fetchAttempt_completed a lct recs pairs hc hs hq',
        rawProgress_append, rawProgress_append, rawProgress_append,
        rawProgress_append, junkLoop_rawProgress, hB]
      simp [rawProgress]
    rw [hraw]
    constructor
    · intro p hp
      simp only [List.mem_cons] at hp
      rcases hp with rfl | rfl | rfl | hp
      · omega
      · omega
      · omega
      · rcases List.mem_append.mp hp with hp' | hp'
        · have := mb p hp'
          omega
        · simp only [List.mem_singleton] at hp'
          omega
    · rw [List.chain'_cons, List.chain'_cons]
      refine ⟨by omega, by omega, ?_⟩
      rw [List.chain'_cons']
      constructor
      · intro y hy
        rcases List.mem_append.mp (List.mem_of_mem_head? hy) with hy' | hy'
        · exact (mb y hy').1
        · simp only [List.mem_singleton] at hy'
          omega
      · refine chain'_le_append mc (by simp) fun x hx y hy => ?_
        have := (mb x hx).2
        simp only [List.mem_singleton] at hy
        omega

theorem fetchLoop_first_raw (lct : Option Nat) (n : Nat)
    (envs : List AttemptEnv) (recs : List MailRecord)
    (ho : (fetchAttempt (envs.headD defaultAttempt) lct recs).2.2 ≠
      AttemptOutcome.exn) :
    rawProgress (fetchLoop lct (n + 1) envs recs).1 =
      rawProgress (fetchAttempt (envs.headD defaultAttempt) lct recs).1 := by
  simp only [fetchLoop]
  split
  · rw [rawProgress_append]
    simp [rawProgress]
  · rw [rawProgress_append]
    simp [rawProgress]
  · rename_i h
    exact absurd h ho

theorem fetchAttempt_outcome_ne_exn (a : AttemptEnv) (lct : Option Nat)
    (recs : List MailRecord) (hc : a.connect = true)
    (hs : a.inboxSelect = true) (hq : isSearchExn a.inboxSearch = false) :
    (fetchAttempt a lct recs).2.2 ≠ AttemptOutcome.exn := by
  cases hq' : a.inboxSearch with
  | exn => rw [hq'] at hq; simp [isSearchExn] at hq
  | notOk => rw [fetchAttempt_early a lct recs hc hs hq']; simp
  | ok pairs => rw [fetchAttempt_completed a lct recs pairs hc hs hq']; simp

/-- Claim C7 (amended): for every successful pass whose first
connect+operate attempt does not raise (no retry fired), the sequence of
progress values delivered to the caller's callback is non-decreasing,
starts at 0 (≤ 10), and ends at exactly 100. -/
theorem c7_progress_monotone_without_retry :
    ∀ (addr eid : String) (ce : CheckEnv),
      (get_new_access_token ce.tokenResp).getD "" ≠ "" →
      ce.updateTokenOk = true →
      (ce.attempts.headD defaultAttempt).connect = true →
      (ce.attempts.headD defaultAttempt).inboxSelect = true →
      isSearchExn (ce.attempts.headD defaultAttempt).inboxSearch = false →
      (check_mail addr eid ce).2.success = true ∧
      List.Chain' (· ≤ ·) (progressValues (check_mail addr eid ce).1) ∧
      (progressValues (check_mail addr eid ce).1).head? = some 0 ∧
      (progressValues (check_mail addr eid ce).1).getLast? = some 100 := by
  intro addr eid ce htok hupd hc hs hq
  obtain ⟨ab, ac⟩ := fetchAttempt_progress (ce.attempts.headD defaultAttempt)
    none [] hc hs hq
  have hne := fetchAttempt_outcome_ne_exn (ce.attempts.headD defaultAttempt)
    none [] hc hs hq
  have hraw : rawProgress (fetch_emails ce.attempts none).1 =
      rawProgress (fetchAttempt (ce.attempts.headD defaultAttempt)
        none []).1 :=
    fetchLoop_first_raw none 2 ce.attempts [] hne
  have hpv : progressValues (check_mail addr eid ce).1 =
      [0, 10] ++ (rawProgress (fetchAttempt
        (ce.attempts.headD defaultAttempt) none []).1).map mapProgress ++
        [90, 100] := by
    rw [check_mail_success addr eid ce htok hupd, progressValues_append,
      progressValues_append, progressValues_map_fetch, hraw]
    rfl
  have mappedb : ∀ x ∈ (rawProgress (fetchAttempt
      (ce.attempts.headD defaultAttempt) none []).1).map mapProgress,
      18 ≤ x ∧ x ≤ 82 := by
    intro x hx
    obtain ⟨q, hq2, rfl⟩ := List.mem_map.mp hx
    have := ab q hq2
    unfold mapProgress
    omega
  have mappedc : List.Chain' (· ≤ ·)
      ((rawProgress (fetchAttempt (ce.attempts.headD defaultAttempt)
        none []).1).map mapProgress) := by
    rw [List.chain'_map]
    exact ac.imp fun a b h => mapProgress_mono h
  refine ⟨?_, ?_, ?_, ?_⟩
  · rw [check_mail_success addr eid ce htok hupd]
  · rw [hpv]
    simp only [List.append_assoc, List.cons_append, List.nil_append]
    rw [List.chain'_cons]
    refine ⟨by omega, ?_⟩
    rw [List.chain'_cons']
    constructor
    · intro y hy
      rcases List.mem_append.mp (List.mem_of_mem_head? hy) with hy' | hy'
      · exact le_trans (by omega) (mappedb y hy').1
      · simp only [List.mem_cons, List.not_mem_nil, or_false] at hy'
        rcases hy' with rfl | rfl <;> omega
    · refine chain'_le_append mappedc (by simp [List.chain'_cons])
        fun x hx y hy => ?_
      have := (mappedb x hx).2
      simp only [List.mem_cons, List.not_mem_nil, or_false] at hy
      rcases hy with rfl | rfl <;> omega
  · rw [hpv]
    rfl
  · rw [hpv, List.getLast?_append]
    rfl

theorem c7_witness :
    ((get_new_access_token ceHappy.tokenResp).getD "" ≠ "" ∧
      ceHappy.updateTokenOk = true ∧
      (ceHappy.attempts.headD defaultAttempt).connect = true ∧
      (ceHappy.attempts.headD defaultAttempt).inboxSelect = true ∧
      isSearchExn (ceHappy.attempts.headD defaultAttempt).inboxSearch =
        false) ∧
    (check_mail "a" "1" ceHappy).2.success = true ∧
    List.Chain' (· ≤ ·) (progressValues (check_mail "a" "1" ceHappy).1) ∧
    (progressValues (check_mail "a" "1" ceHappy).1).head? = some 0 ∧
    (progressValues (check_mail "a" "1" ceHappy).1).getLast? = some 100 :=
  ⟨⟨by decide, rfl, rfl, rfl, rfl⟩,
    c7_progress_monotone_without_retry "a" "1" ceHappy (by decide) rfl rfl
      rfl rfl⟩

/-- Claim C7, counterexample to the claim over all successful passes: a
pass whose first attempt raises after reporting 42 and whose second attempt
then succeeds is successful, yet its delivered progress sequence decreases
from 42 back to 18 when the retry restarts. -/
theorem c7_counterexample :
    (check_mail "a" "1" ceRetry).2.success = true ∧
    progressValues (check_mail "a" "1" ceRetry).1 =
      [0, 10, 18, 26, 42, 18, 26, 42, 82, 90, 100] ∧
    ¬ List.Chain' (· ≤ ·)
      ([0, 10, 18, 26, 42, 18, 26, 42, 82, 90, 100] : List Nat) := by
  refine ⟨rfl, rfl, ?_⟩
  intro h
  simp only [List.chain'_cons, List.chain'_singleton] at h
  omega
